import Mathlib

/-!
Verification development for the aero-relay chain poller and packet-relay
pipeline (src/ibc.rs), together with the external byte-level codecs it
composes (hex en/decoding, UTF-8, and the JSON fragment used by
fungible-token transfer packet payloads).

Machine integers from the source (`u64` heights, sequences and timestamps,
`u8` bytes) are modelled as `Nat`; bytes are `Nat` values below 256.
Rust strings are Lean `String`s.
-/

/-- Rust `u64::from_str` (`value.parse::<u64>()`): an optional leading `+`,
then one or more ASCII digits, rejecting the empty digit string and values
that overflow 64 bits.  Returns `none` exactly when Rust returns `Err`. -/
def parseU64 (s : String) : Option Nat :=
  let l := match s.data with
    | '+' :: rest => rest
    | l => l
  if l = [] then none
  else if l.all (fun c => c.isDigit) then
    let v := l.foldl (fun acc c => acc * 10 + (c.toNat - 48)) 0
    if v < 2 ^ 64 then some v else none
  else none

/-- Rust `str::split(sep)` semantics on the character list of a string:
every separator occurrence splits, empty pieces are kept, and the empty
string yields one empty piece. -/
def splitOnChar (sep : Char) : List Char → List (List Char)
  | [] => [[]]
  | c :: rest =>
    let r := splitOnChar sep rest
    if c = sep then [] :: r
    else
      match r with
      | h :: t => (c :: h) :: t
      | [] => [[c]]

/-- `s.split(sep)` as a list of strings. -/
def splitString (sep : Char) (s : String) : List String :=
  (splitOnChar sep s.data).map String.mk

/-- Value of one hexadecimal digit (`0-9`, `a-f`, `A-F`), as accepted by the
`hex` crate and by JSON `\u` escapes. -/
def hexDigitVal (c : Char) : Option Nat :=
  if 48 ≤ c.toNat ∧ c.toNat ≤ 57 then some (c.toNat - 48)
  else if 97 ≤ c.toNat ∧ c.toNat ≤ 102 then some (c.toNat - 87)
  else if 65 ≤ c.toNat ∧ c.toNat ≤ 70 then some (c.toNat - 55)
  else none

/-- Lower-case hexadecimal digit for a value below 16 (`hex::encode`). -/
def hexDigitChar (n : Nat) : Char :=
  if n = 0 then '0' else if n = 1 then '1' else if n = 2 then '2'
  else if n = 3 then '3' else if n = 4 then '4' else if n = 5 then '5'
  else if n = 6 then '6' else if n = 7 then '7' else if n = 8 then '8'
  else if n = 9 then '9' else if n = 10 then 'a' else if n = 11 then 'b'
  else if n = 12 then 'c' else if n = 13 then 'd' else if n = 14 then 'e'
  else 'f'

/-- `hex::decode` on the character list: consumes pairs of hex digits,
failing on odd length or a non-hex character. -/
def hexDecodeList : List Char → Option (List Nat)
  | [] => some []
  | [_] => none
  | c1 :: c2 :: rest =>
    match hexDigitVal c1, hexDigitVal c2, hexDecodeList rest with
    | some hi, some lo, some bs => some ((hi * 16 + lo) :: bs)
    | _, _, _ => none

/-- `hex::decode` applied to a string (the form used at ibc.rs line 209). -/
def hexDecode (s : String) : Option (List Nat) :=
  hexDecodeList s.data

/-- `hex::encode`: two lower-case hex digits per byte. -/
def hexEncodeList (bs : List Nat) : List Char :=
  bs.flatMap (fun b => [hexDigitChar (b / 16), hexDigitChar (b % 16)])

/-- `hex::encode` producing a string. -/
def hexEncode (bs : List Nat) : String :=
  String.mk (hexEncodeList bs)

/-- UTF-8 encoding of a single Unicode scalar value (1 to 4 bytes). -/
def utf8EncodeChar (c : Char) : List Nat :=
  let n := c.toNat
  if n < 0x80 then [n]
  else if n < 0x800 then [0xC0 + n / 64, 0x80 + n % 64]
  else if n < 0x10000 then
    [0xE0 + n / 4096, 0x80 + (n / 64) % 64, 0x80 + n % 64]
  else
    [0xF0 + n / 262144, 0x80 + (n / 4096) % 64, 0x80 + (n / 64) % 64, 0x80 + n % 64]

/-- UTF-8 encoding of a string, as the byte list Rust's `String` stores. -/
def utf8Encode (s : String) : List Nat :=
  s.data.flatMap utf8EncodeChar

/-- The Unicode replacement character emitted by `String::from_utf8_lossy`
for bytes that are not valid UTF-8. -/
def replacementChar : Char := '�'

/-- Scalar value to character; invalid scalar values (out of range or
surrogates) become the replacement character. -/
def charOfCp (n : Nat) : Char :=
  if h : n.isValidChar then Char.ofNatAux n h else replacementChar

/-- Lead-byte step of the lossy UTF-8 decoder: emit an ASCII character,
start a 2-, 3- or 4-byte sequence (remembering the continuation count, the
accumulated value and the minimum scalar value that rejects overlong
encodings), or emit a replacement character for an invalid lead byte. -/
def utf8Lead (b : Nat) : List Char × Option (Nat × Nat × Nat) :=
  if b < 0x80 then ([charOfCp b], none)
  else if b < 0xC0 then ([replacementChar], none)
  else if b < 0xE0 then ([], some (1, b - 0xC0, 0x80))
  else if b < 0xF0 then ([], some (2, b - 0xE0, 0x800))
  else if b < 0xF8 then ([], some (3, b - 0xF0, 0x10000))
  else ([replacementChar], none)

/-- One byte of lossy UTF-8 decoding.  The state is `none` between
characters and `some (need, acc, minVal)` inside a multi-byte sequence.
A valid continuation byte extends `acc`; the last one emits the character
(replacement if overlong; `charOfCp` rejects surrogates and out-of-range
values).  An invalid continuation emits a replacement and reprocesses the
byte as a lead. -/
def utf8Step (st : Option (Nat × Nat × Nat)) (b : Nat) :
    List Char × Option (Nat × Nat × Nat) :=
  match st with
  | none => utf8Lead b
  | some (need, acc, minVal) =>
    if 0x80 ≤ b ∧ b < 0xC0 then
      if need ≤ 1 then
        (if minVal ≤ acc * 64 + (b - 0x80) then [charOfCp (acc * 64 + (b - 0x80))]
         else [replacementChar], none)
      else ([], some (need - 1, acc * 64 + (b - 0x80), minVal))
    else (replacementChar :: (utf8Lead b).1, (utf8Lead b).2)

/-- Lossy UTF-8 decoding of a byte list (`String::from_utf8_lossy`,
ibc.rs line 211): fold `utf8Step` over the bytes; a dangling incomplete
sequence at the end yields a final replacement character.  (Replacement
granularity for ill-formed input is a model simplification; every claim
exercises only well-formed input.) -/
def utf8DecodeLoop : Option (Nat × Nat × Nat) → List Nat → List Char
  | none, [] => []
  | some _, [] => [replacementChar]
  | st, b :: rest =>
    (utf8Step st b).1 ++ utf8DecodeLoop (utf8Step st b).2 rest

/-- `String::from_utf8_lossy` as a string-valued function. -/
def utf8LossyDecode (bs : List Nat) : String :=
  String.mk (utf8DecodeLoop none bs)

example : parseU64 "150" = some 150 := by decide
example : parseU64 "abc" = none := by decide
example : parseU64 "" = none := by decide
example : parseU64 "+7" = some 7 := by decide
example : splitString '-' "3-150" = ["3", "150"] := by decide
example : splitString '-' "" = [""] := by decide
example : hexDecode "7b7d" = some [123, 125] := by decide
example : hexDecode "7b7" = none := by decide
example : hexEncode [123, 125] = "7b7d" := by decide
example : utf8Encode "ab" = [97, 98] := by decide
example : utf8LossyDecode [97, 98] = "ab" := by decide

/-- serde_json string escaping (`\"`, `\\`, short escapes for the usual
control characters, `\u00XX` for the remaining control characters). -/
def escapeChar (c : Char) : List Char :=
  if c = '"' then ['\\', '"']
  else if c = '\\' then ['\\', '\\']
  else if c.toNat < 0x20 then
    if c.toNat = 8 then ['\\', 'b']
    else if c.toNat = 9 then ['\\', 't']
    else if c.toNat = 10 then ['\\', 'n']
    else if c.toNat = 12 then ['\\', 'f']
    else if c.toNat = 13 then ['\\', 'r']
    else ['\\', 'u', '0', '0', hexDigitChar (c.toNat / 16), hexDigitChar (c.toNat % 16)]
  else [c]

/-- Escaped body of a JSON string literal. -/
def escapeString (s : List Char) : List Char :=
  s.flatMap escapeChar

/-- Parse the body of a JSON string literal after its opening quote,
returning the unescaped content and the input after the closing quote.
Matches serde_json: raw control characters and invalid escapes are errors;
`\uXXXX` escapes accept both digit cases (lone surrogates are rejected,
a model simplification that no claim exercises). -/
def parseStringBody : List Char → Option (List Char × List Char)
  | [] => none
  | c :: rest =>
    if c = '"' then some ([], rest)
    else if c = '\\' then
      match rest with
      | [] => none
      | e :: r =>
        if e = '"' then (parseStringBody r).map (fun p => ('"' :: p.1, p.2))
        else if e = '\\' then (parseStringBody r).map (fun p => ('\\' :: p.1, p.2))
        else if e = '/' then (parseStringBody r).map (fun p => ('/' :: p.1, p.2))
        else if e = 'b' then (parseStringBody r).map (fun p => (Char.ofNat 8 :: p.1, p.2))
        else if e = 'f' then (parseStringBody r).map (fun p => (Char.ofNat 12 :: p.1, p.2))
        else if e = 'n' then (parseStringBody r).map (fun p => (Char.ofNat 10 :: p.1, p.2))
        else if e = 'r' then (parseStringBody r).map (fun p => (Char.ofNat 13 :: p.1, p.2))
        else if e = 't' then (parseStringBody r).map (fun p => (Char.ofNat 9 :: p.1, p.2))
        else if e = 'u' then
          match r with
          | h1 :: h2 :: h3 :: h4 :: r2 =>
            match hexDigitVal h1, hexDigitVal h2, hexDigitVal h3, hexDigitVal h4 with
            | some d1, some d2, some d3, some d4 =>
              let n := ((d1 * 16 + d2) * 16 + d3) * 16 + d4
              if n.isValidChar then
                (parseStringBody r2).map (fun p => (charOfCp n :: p.1, p.2))
              else none
            | _, _, _, _ => none
          | _ => none
        else none
    else if c.toNat < 0x20 then none
    else (parseStringBody rest).map (fun p => (c :: p.1, p.2))

/-- Parse the members of a JSON object whose values are all strings, after
the opening brace: `"key":"value"` pairs separated by commas, ending at the
closing brace.  Fuel-indexed (one unit per member); callers pass at least
the input length. -/
def parseMembers : Nat → List Char → Option (List (String × String) × List Char)
  | 0, _ => none
  | fuel + 1, l =>
    match l with
    | [] => none
    | c :: r =>
      if c = '"' then
        match parseStringBody r with
        | none => none
        | some (k, r2) =>
          match r2 with
          | ':' :: '"' :: r4 =>
            match parseStringBody r4 with
            | none => none
            | some (v, r5) =>
              match r5 with
              | [] => none
              | sep :: r6 =>
                if sep = ',' then
                  (parseMembers fuel r6).map
                    (fun p => ((String.mk k, String.mk v) :: p.1, p.2))
                else if sep = '\x7d' then some ([(String.mk k, String.mk v)], r6)
                else none
          | _ => none
      else none

/-- Model of `serde_json::from_str::<Value>` (ibc.rs line 212) restricted to
the fragment the transfer-packet payloads live in: a JSON object whose
values are strings, in canonical (whitespace-free) form.  The object is
returned as its member list in input order; inputs outside the fragment are
modelled as parse errors. -/
def jsonParseObj (s : String) : Option (List (String × String)) :=
  match s.data with
  | [] => none
  | c :: rest =>
    if c = '\x7b' then
      if rest = ['\x7d'] then some []
      else
        match parseMembers (rest.length + 1) rest with
        | some (ms, []) => some ms
        | _ => none
    else none

/-- One printed member `"key":"value"` of a JSON object (serde_json
canonical form). -/
def printMember (k v : String) : List Char :=
  '"' :: escapeString k.data ++ '"' :: ':' :: '"' :: escapeString v.data ++ ['"']

/-- Comma-joined printed members. -/
def printMembers : List (String × String) → List Char
  | [] => []
  | [(k, v)] => printMember k v
  | (k, v) :: rest => printMember k v ++ ',' :: printMembers rest

/-- Model of `serde_json::to_string` on an object whose values are strings
(canonical form, members in list order). -/
def jsonPrintObj (ms : List (String × String)) : String :=
  String.mk ('\x7b' :: printMembers ms ++ ['\x7d'])

/-- Access `v[key].as_str()` on a parsed object: serde_json maps keep the
last occurrence of a duplicated key; a missing key indexes to `Null`, whose
`as_str()` is `None`. -/
def jsonGetStr (ms : List (String × String)) (key : String) : Option String :=
  (ms.reverse.find? (fun p => p.1 == key)).map (fun p => p.2)

example : jsonParseObj "\x7b\x7d" = some [] := by decide
example : jsonPrintObj [("a", "b")] = "\x7b\"a\":\"b\"\x7d" := by decide
example : jsonParseObj "\x7b\"a\":\"b\"\x7d" = some [("a", "b")] := by decide
example : jsonParseObj "\x7b\"amount\":\"100\",\"denom\":\"uatom\"\x7d" =
    some [("amount", "100"), ("denom", "uatom")] := by decide
example : jsonGetStr [("amount", "100"), ("denom", "uatom")] "denom" = some "uatom" := by decide
example : jsonGetStr [("amount", "100")] "denom" = none := by decide

/-- `FungibleTokenPacketData` (ibc.rs lines 13-19): the structured transfer
payload extracted from a packet's JSON data. -/
structure FungibleTokenPacketData where
  amount : String
  denom : String
  sender : String
  receiver : String
deriving Repr, DecidableEq

/-- `ParsedPacket` (ibc.rs lines 21-31). -/
structure ParsedPacket where
  sequence : Nat
  src_port : String
  src_channel : String
  dst_port : String
  dst_channel : String
  timeout_height : String
  timeout_timestamp : Nat
  data : FungibleTokenPacketData
deriving Repr, DecidableEq

/-- `ibc_proto::ibc::core::client::v1::Height`. -/
structure IbcHeight where
  revision_number : Nat
  revision_height : Nat
deriving Repr, DecidableEq

/-- `ibc_proto::ibc::core::channel::v1::Packet` (wire packet, ibc.rs
lines 82-98); `data` holds the protobuf-encoded transfer payload bytes. -/
structure Packet where
  sequence : Nat
  source_port : String
  source_channel : String
  destination_port : String
  destination_channel : String
  data : List Nat
  timeout_height : Option IbcHeight
  timeout_timestamp : Nat
deriving Repr, DecidableEq

/-- `ibc_proto::ibc::core::channel::v1::MsgRecvPacket` (ibc.rs
lines 100-109). -/
structure MsgRecvPacket where
  packet : Option Packet
  proof_commitment : List Nat
  proof_height : Option IbcHeight
  signer : String
deriving Repr, DecidableEq

/-- Little-endian base-128 varint used by protobuf length prefixes.  The
fuel bound (64) covers every length arising from 64-bit-sized data. -/
def varintAux : Nat → Nat → List Nat
  | 0, _ => []
  | fuel + 1, n => if n < 128 then [n] else (n % 128 + 128) :: varintAux fuel (n / 128)

/-- Protobuf varint of a natural number. -/
def varint (n : Nat) : List Nat :=
  varintAux 64 n

/-- One protobuf length-delimited string field: proto3 omits fields equal
to the default empty string; otherwise tag byte `tag*8+2`, varint length,
UTF-8 bytes. -/
def protoField (tag : Nat) (s : String) : List Nat :=
  if s = "" then []
  else (tag * 8 + 2) :: varint (utf8Encode s).length ++ utf8Encode s

/-- `prost::Message::encode` of the proto `FungibleTokenPacketData` built at
ibc.rs lines 64-74: field numbers denom=1, amount=2, sender=3, receiver=4,
memo=5, with `memo` always set to the empty string (and hence omitted). -/
def protoEncodeFungible (d : FungibleTokenPacketData) : List Nat :=
  protoField 1 d.denom ++ protoField 2 d.amount ++ protoField 3 d.sender ++
    protoField 4 d.receiver ++ protoField 5 ""

/-- `IbcPoller::relay_packet` (ibc.rs lines 59-141): builds the
`MsgRecvPacket` for a parsed packet.
* `last_height` is the poller's `self.last_height` at the time of the call.
* `signerEnv` models the `RELAYER_SIGNER` environment variable.
* `proofResult` models the outcome of `generate_packet_proof
  (packet_data_hex)` (the `encryption-proof` feature body, lines 118-132):
  the source only logs it — success and failure alike — so it does not
  influence the returned message, and the function returns `Ok` either way.
* `proof_commitment` is the literal `vec![]` of line 102, `proof_height`
  the literal `Height \x7b revision_number: 0, revision_height:
  self.last_height \x7d` of lines 103-106.
* `revision_height` (lines 76-80) takes the piece after the first `-` of
  `timeout_height`, parsed as `u64`, defaulting to 0; the timeout height
  (lines 89-96) is `Some` with hardcoded `revision_number: 1` when that
  value is positive, `None` otherwise. -/
def relay_packet (last_height : Nat) (signerEnv : Option String)
    (proofResult : Except String (List Nat)) (parsed : ParsedPacket) : MsgRecvPacket :=
  let data_bytes := protoEncodeFungible parsed.data
  let revision_height := (((splitString '-' parsed.timeout_height).get? 1).bind parseU64).getD 0
  let packet : Packet :=
    { sequence := parsed.sequence
      source_port := parsed.src_port
      source_channel := parsed.src_channel
      destination_port := parsed.dst_port
      destination_channel := parsed.dst_channel
      data := data_bytes
      timeout_height :=
        if revision_height > 0 then
          some { revision_number := 1, revision_height := revision_height }
        else none
      timeout_timestamp := parsed.timeout_timestamp }
  { packet := some packet
    proof_commitment := []
    proof_height := some { revision_number := 0, revision_height := last_height }
    signer := signerEnv.getD "replace_with_your_address" }

/-- One event attribute as the source observes it: `key_str()` /
`value_str()` with `unwrap_or("")` collapse non-UTF-8 attribute bytes to
the empty string, so attributes are modelled directly as strings. -/
structure EventAttribute where
  key : String
  value : String
deriving Repr, DecidableEq

/-- One transaction event (`tendermint` ABCI event): a kind plus ordered
attributes. -/
structure Event where
  kind : String
  attributes : List EventAttribute
deriving Repr, DecidableEq

/-- The scanner's filter predicate (ibc.rs lines 169-175): the event kind
is `send_packet` or `write_acknowledgement`, and some attribute keyed
`packet_src_channel` or `packet_dst_channel` carries the monitored
channel id. -/
def is_relevant (channel_id : String) (e : Event) : Bool :=
  (e.kind == "send_packet" || e.kind == "write_acknowledgement") &&
    e.attributes.any (fun a =>
      (a.key == "packet_src_channel" || a.key == "packet_dst_channel") &&
        a.value == channel_id)

/-- The eight mutable locals of ibc.rs lines 180-187 with their initial
values. -/
structure ExtractedAttrs where
  sequence : Nat := 0
  src_port : String := ""
  src_channel : String := ""
  dst_port : String := ""
  dst_channel : String := ""
  timeout_height : String := ""
  timeout_timestamp : Nat := 0
  packet_data_hex : String := ""
deriving Repr, DecidableEq

/-- One step of the attribute loop (ibc.rs lines 189-206): known keys
overwrite the corresponding local (`parse().unwrap_or(0)` for the numeric
ones), unknown keys are ignored. -/
def applyAttr (acc : ExtractedAttrs) (a : EventAttribute) : ExtractedAttrs :=
  if a.key = "packet_sequence" then { acc with sequence := (parseU64 a.value).getD 0 }
  else if a.key = "packet_src_port" then { acc with src_port := a.value }
  else if a.key = "packet_src_channel" then { acc with src_channel := a.value }
  else if a.key = "packet_dst_port" then { acc with dst_port := a.value }
  else if a.key = "packet_dst_channel" then { acc with dst_channel := a.value }
  else if a.key = "packet_timeout_height" then { acc with timeout_height := a.value }
  else if a.key = "packet_timeout_timestamp" then { acc with timeout_timestamp := (parseU64 a.value).getD 0 }
  else if a.key = "packet_data_hex" then { acc with packet_data_hex := a.value }
  else acc

/-- The attribute loop over a whole event (later duplicates overwrite
earlier values). -/
def extractAttrs (attrs : List EventAttribute) : ExtractedAttrs :=
  attrs.foldl applyAttr {}

/-- Outcome of the payload decoding chain of ibc.rs lines 209-233. -/
inductive PayloadResult where
  | hexErr
  | jsonErr
  | ok (d : FungibleTokenPacketData)
deriving Repr, DecidableEq

/-- The payload decoding chain (ibc.rs lines 209-233): hex-decode the
`packet_data_hex` attribute (failure is the warning of line 245), decode
the bytes lossily as UTF-8, parse as JSON (failure is the warning of
line 242), then read the four fields with `as_str().unwrap_or(...)`
defaults `"0"`, `""`, `""`, `""`. -/
def decodePayload (packet_data_hex : String) : PayloadResult :=
  match hexDecode packet_data_hex with
  | none => .hexErr
  | some bytes =>
    match jsonParseObj (utf8LossyDecode bytes) with
    | none => .jsonErr
    | some v =>
      .ok { amount := (jsonGetStr v "amount").getD "0"
            denom := (jsonGetStr v "denom").getD ""
            sender := (jsonGetStr v "sender").getD ""
            receiver := (jsonGetStr v "receiver").getD "" }

/-- What the poller does with one event inside one block (ibc.rs
lines 168-248). -/
inductive EventOutcome where
  /-- The filter of lines 169-175 rejected the event. -/
  | ignored
  /-- The event passed the filter but `packet_data_hex` stayed empty, so
  the whole body of lines 208-247 is skipped: no packet and no report. -/
  | skippedNoData
  /-- `hex::decode` failed: warning at line 245. -/
  | hexError
  /-- JSON parsing failed: warning at line 242. -/
  | jsonError
  /-- A `ParsedPacket` was built (lines 220-234) and `relay_packet` formed
  the message. -/
  | relayed (msg : MsgRecvPacket) (parsed : ParsedPacket)
deriving Repr, DecidableEq

/-- Processing of one event (ibc.rs lines 168-248).  `last_height` is the
poller cursor at the time (equal to the height of the block being
scanned); `proofFn` models `generate_packet_proof`. -/
def processEvent (channel_id : String) (last_height : Nat) (signerEnv : Option String)
    (proofFn : String → Except String (List Nat)) (e : Event) : EventOutcome :=
  if is_relevant channel_id e then
    let a := extractAttrs e.attributes
    if a.packet_data_hex = "" then .skippedNoData
    else
      match decodePayload a.packet_data_hex with
      | .hexErr => .hexError
      | .jsonErr => .jsonError
      | .ok d =>
        let parsed : ParsedPacket :=
          { sequence := a.sequence
            src_port := a.src_port
            src_channel := a.src_channel
            dst_port := a.dst_port
            dst_channel := a.dst_channel
            timeout_height := a.timeout_height
            timeout_timestamp := a.timeout_timestamp
            data := d }
        .relayed (relay_packet last_height signerEnv (proofFn a.packet_data_hex) parsed) parsed
  else .ignored

/-- Result of `self.client.block_results(height)` (ibc.rs line 164):
an RPC error, or block results whose `txs_results` is an optional list of
transactions, each carrying its events. -/
inductive FetchResult where
  | err
  | ok (txs : Option (List (List Event)))

/-- What happened at one height of the inner loop. -/
inductive HeightOutcome where
  /-- `block_results` failed: the `Err` arm of line 253 only logs at debug
  level and the loop moves on. -/
  | fetchFailed
  /-- `block_results` succeeded; the per-transaction, per-event outcomes in
  order. -/
  | processed (outs : List (List EventOutcome))
deriving DecidableEq

/-- Processing of a single height (ibc.rs lines 159-254), entered with the
cursor already advanced to `h`; `relay_packet` therefore sees
`self.last_height = h`. -/
def processHeight (channel_id : String) (signerEnv : Option String)
    (proofFn : String → Except String (List Nat)) (fetch : Nat → FetchResult)
    (h : Nat) : HeightOutcome :=
  match fetch h with
  | .err => .fetchFailed
  | .ok none => .processed []
  | .ok (some txs) => .processed (txs.map (fun tx => tx.map (processEvent channel_id h signerEnv proofFn)))

/-- The inner catch-up loop `while self.last_height < current_height`
(ibc.rs lines 157-257), written with its iteration count
`current_height - last_height` explicit so that the recursion is
structural: each iteration first increments the cursor (line 158), then
fetches and processes the block at the new cursor value.  Returns the
final cursor and the per-height outcomes in order. -/
def runInnerAux (channel_id : String) (signerEnv : Option String)
    (proofFn : String → Except String (List Nat)) (fetch : Nat → FetchResult) :
    Nat → Nat → Nat × List (Nat × HeightOutcome)
  | st, 0 => (st, [])
  | st, rem + 1 =>
    let h := st + 1
    let out := processHeight channel_id signerEnv proofFn fetch h
    let next := runInnerAux channel_id signerEnv proofFn fetch h rem
    (next.1, (h, out) :: next.2)

/-- The inner loop from cursor `st` up to chain height `current`. -/
def runInner (channel_id : String) (signerEnv : Option String)
    (proofFn : String → Except String (List Nat)) (fetch : Nat → FetchResult)
    (current : Nat) (st : Nat) : Nat × List (Nat × HeightOutcome) :=
  runInnerAux channel_id signerEnv proofFn fetch st (current - st)

/-- One iteration of the outer `loop` (ibc.rs lines 147-260): fetch the
current chain height; on failure (`heightFetch = none`) sleep and retry
with the cursor untouched (lines 150-154), otherwise run the inner
catch-up loop. -/
def pollIteration (channel_id : String) (signerEnv : Option String)
    (proofFn : String → Except String (List Nat))
    (heightFetch : Option Nat) (fetch : Nat → FetchResult)
    (st : Nat) : Nat × List (Nat × HeightOutcome) :=
  match heightFetch with
  | none => (st, [])
  | some current => runInner channel_id signerEnv proofFn fetch current st

/-- A finite prefix of the infinite polling loop: each element of `inputs`
is one outer iteration's observation of the chain (height-fetch result and
block-results oracle).  Returns the final cursor and all per-height
outcomes in order. -/
def pollRun (channel_id : String) (signerEnv : Option String)
    (proofFn : String → Except String (List Nat)) :
    List (Option Nat × (Nat → FetchResult)) → Nat → Nat × List (Nat × HeightOutcome)
  | [], st => (st, [])
  | (hf, f) :: rest, st =>
    let step := pollIteration channel_id signerEnv proofFn hf f st
    let next := pollRun channel_id signerEnv proofFn rest step.1
    (next.1, step.2 ++ next.2)

/-- Whether an event's processing produced a packet message. -/
def producesPacket : EventOutcome → Bool
  | .relayed _ _ => true
  | _ => false

/-- Whether an event's processing reported a decode error (the warnings of
ibc.rs lines 242 and 245). -/
def reportsError : EventOutcome → Bool
  | .hexError => true
  | .jsonError => true
  | _ => false

/-- The `ParsedPacket` an outcome carries, if any. -/
def outcomeParsed : EventOutcome → Option ParsedPacket
  | .relayed _ p => some p
  | _ => none

/-- The formed `MsgRecvPacket` an outcome carries, if any. -/
def outcomeMsg : EventOutcome → Option MsgRecvPacket
  | .relayed m _ => some m
  | _ => none

/-- C1: the claim says a height whose block-results fetch fails is retried
and the cursor never advances past it.  The code increments the cursor
before fetching (ibc.rs line 158) and the fetch-error arm (line 253) only
logs, so with cursor 0, chain height 1 and a failing fetch for height 1,
the cursor ends at 1 — past the unprocessed height — and a second
iteration with a now-working fetch never revisits height 1. -/
theorem c1_cursor_advances_past_failed_fetch :
    pollRun "channel-0" none (fun _ => Except.ok [])
        [(some 1, fun _ => FetchResult.err),
         (some 1, fun _ => FetchResult.ok (some [[]]))] 0
      = (1, [(1, HeightOutcome.fetchFailed)]) := by
  decide

/-- C2: the claim says every qualifying event yields a packet or a
reported error.  A qualifying `send_packet` event carrying no
`packet_data_hex` attribute falls outside the `if !packet_data_hex
.is_empty()` body (ibc.rs lines 208-247): the code produces no packet and
reports nothing. -/
theorem c2_qualifying_event_dropped_without_report :
    is_relevant "channel-0"
        ⟨"send_packet", [⟨"packet_dst_channel", "channel-0"⟩]⟩ = true ∧
    processEvent "channel-0" 5 none (fun _ => Except.ok [])
        ⟨"send_packet", [⟨"packet_dst_channel", "channel-0"⟩]⟩
      = EventOutcome.skippedNoData ∧
    producesPacket EventOutcome.skippedNoData = false ∧
    reportsError EventOutcome.skippedNoData = false := by
  decide

/-- C3: `proof_height` is built at ibc.rs lines 103-106 with
`revision_number` hardcoded to 0 — never the source chain's actual
revision number — and `revision_height` equal to `self.last_height`
(which inside the poll loop equals the height of the block being
processed). -/
theorem c3_proof_height_revision_hardcoded :
    (∀ (h : Nat) (se : Option String) (pr : Except String (List Nat)) (p : ParsedPacket),
        (relay_packet h se pr p).proof_height
          = some { revision_number := 0, revision_height := h }) ∧
    (relay_packet 1000 none (Except.ok [])
        ⟨42, "transfer", "channel-0", "transfer", "channel-1", "3-150", 0,
          ⟨"100", "uatom", "a", "b"⟩⟩).proof_height
      = some { revision_number := 0, revision_height := 1000 } := by
  exact ⟨fun _ _ _ _ => rfl, rfl⟩

/-- C4: the claim says both components of `timeout_height` appear verbatim
in the output height, so `"3-150"` must produce revision number 3.  The
code (ibc.rs lines 89-93) hardcodes `revision_number: 1`, so `"3-150"`
produces revision number 1, not 3; the "no timeout" sentinel half of the
claim does hold (`""` and `"x-0"` give `None`). -/
theorem c4_timeout_revision_hardcoded :
    ((relay_packet 5 none (Except.ok [])
        ⟨42, "transfer", "channel-0", "transfer", "channel-1", "3-150", 0,
          ⟨"100", "uatom", "a", "b"⟩⟩).packet.map Packet.timeout_height
      = some (some { revision_number := 1, revision_height := 150 })) ∧
    (1 : Nat) ≠ 3 ∧
    ((relay_packet 5 none (Except.ok [])
        ⟨42, "transfer", "channel-0", "transfer", "channel-1", "", 0,
          ⟨"100", "uatom", "a", "b"⟩⟩).packet.map Packet.timeout_height
      = some none) ∧
    ((relay_packet 5 none (Except.ok [])
        ⟨42, "transfer", "channel-0", "transfer", "channel-1", "x-0", 0,
          ⟨"100", "uatom", "a", "b"⟩⟩).packet.map Packet.timeout_height
      = some none) := by
  refine ⟨by decide, by decide, by decide, by decide⟩

/-- C5: the claim says a proof failure must fail the message build.  In
the code the message is fully formed with `proof_commitment: vec![]`
(ibc.rs line 102) before proof generation, whose failure is only logged
(lines 128-131): the built message does not depend on the proof outcome at
all, and a qualifying event still yields a message with an empty proof
when the proof function fails. -/
theorem c5_message_built_despite_proof_failure :
    (∀ (h : Nat) (se : Option String) (pr pr' : Except String (List Nat)) (p : ParsedPacket),
        relay_packet h se pr p = relay_packet h se pr' p) ∧
    (∀ (h : Nat) (se : Option String) (pr : Except String (List Nat)) (p : ParsedPacket),
        (relay_packet h se pr p).proof_commitment = []) ∧
    producesPacket (processEvent "channel-0" 5 none (fun _ => Except.error "proof failed")
        ⟨"send_packet", [⟨"packet_dst_channel", "channel-0"⟩,
          ⟨"packet_data_hex", "7b7d"⟩]⟩) = true ∧
    (outcomeMsg (processEvent "channel-0" 5 none (fun _ => Except.error "proof failed")
        ⟨"send_packet", [⟨"packet_dst_channel", "channel-0"⟩,
          ⟨"packet_data_hex", "7b7d"⟩]⟩)).map MsgRecvPacket.proof_commitment
      = some [] := by
  refine ⟨fun _ _ _ _ _ => rfl, fun _ _ _ _ => rfl, by decide, by decide⟩

/-- C6: the claim says an unparsable `packet_sequence` or
`packet_timeout_timestamp` is a decode error and never a silent zero.
The code (ibc.rs lines 194 and 200) uses `parse().unwrap_or(0)`:
with `packet_sequence = "abc"` and `packet_timeout_timestamp = "xyz"`
(both unparsable) and payload `7b7d` (hex of an empty JSON object), a
`ParsedPacket` with sequence 0 and timestamp 0 is still produced and no
decode error is reported. -/
theorem c6_unparsable_numbers_default_to_zero :
    parseU64 "abc" = none ∧ parseU64 "xyz" = none ∧
    (outcomeParsed (processEvent "channel-0" 5 none (fun _ => Except.ok [])
        ⟨"send_packet", [⟨"packet_dst_channel", "channel-0"⟩,
          ⟨"packet_sequence", "abc"⟩, ⟨"packet_timeout_timestamp", "xyz"⟩,
          ⟨"packet_data_hex", "7b7d"⟩]⟩)).map ParsedPacket.sequence = some 0 ∧
    (outcomeParsed (processEvent "channel-0" 5 none (fun _ => Except.ok [])
        ⟨"send_packet", [⟨"packet_dst_channel", "channel-0"⟩,
          ⟨"packet_sequence", "abc"⟩, ⟨"packet_timeout_timestamp", "xyz"⟩,
          ⟨"packet_data_hex", "7b7d"⟩]⟩)).map ParsedPacket.timeout_timestamp = some 0 ∧
    reportsError (processEvent "channel-0" 5 none (fun _ => Except.ok [])
        ⟨"send_packet", [⟨"packet_dst_channel", "channel-0"⟩,
          ⟨"packet_sequence", "abc"⟩, ⟨"packet_timeout_timestamp", "xyz"⟩,
          ⟨"packet_data_hex", "7b7d"⟩]⟩) = false := by
  refine ⟨by decide, by decide, by decide, by decide, by decide⟩

/-- C7: the claim says a payload missing one of the four string fields is
rejected as a decode error.  The code (ibc.rs lines 228-233) substitutes
defaults via `as_str().unwrap_or(...)`: a payload missing `denom` still
produces a `ParsedPacket`, with `denom = ""`, and no decode error is
reported. -/
theorem c7_missing_denom_defaulted_not_rejected :
    producesPacket (processEvent "channel-0" 5 none (fun _ => Except.ok [])
        ⟨"send_packet", [⟨"packet_dst_channel", "channel-0"⟩,
          ⟨"packet_data_hex",
            hexEncode (utf8Encode "\x7b\"amount\":\"100\",\"sender\":\"cosmos1a\",\"receiver\":\"cosmos1b\"\x7d")⟩]⟩)
      = true ∧
    (outcomeParsed (processEvent "channel-0" 5 none (fun _ => Except.ok [])
        ⟨"send_packet", [⟨"packet_dst_channel", "channel-0"⟩,
          ⟨"packet_data_hex",
            hexEncode (utf8Encode "\x7b\"amount\":\"100\",\"sender\":\"cosmos1a\",\"receiver\":\"cosmos1b\"\x7d")⟩]⟩)).map
        (fun p => p.data)
      = some ⟨"100", "", "cosmos1a", "cosmos1b"⟩ ∧
    reportsError (processEvent "channel-0" 5 none (fun _ => Except.ok [])
        ⟨"send_packet", [⟨"packet_dst_channel", "channel-0"⟩,
          ⟨"packet_data_hex",
            hexEncode (utf8Encode "\x7b\"amount\":\"100\",\"sender\":\"cosmos1a\",\"receiver\":\"cosmos1b\"\x7d")⟩]⟩)
      = false := by
  refine ⟨by decide, by decide, by decide⟩

/-- C8: the scanner's filter (ibc.rs lines 169-175) selects an event iff
its kind is `send_packet` or `write_acknowledgement` and some attribute
keyed `packet_src_channel` or `packet_dst_channel` equals the monitored
channel id; in particular a `send_packet` event with `packet_dst_channel =
"channel-7"` is selected when monitoring `channel-7` and excluded when
monitoring `channel-8`. -/
theorem c8_filter_predicate_correct :
    (∀ (channel_id : String) (e : Event),
        is_relevant channel_id e = true ↔
          ((e.kind = "send_packet" ∨ e.kind = "write_acknowledgement") ∧
            ∃ a ∈ e.attributes,
              (a.key = "packet_src_channel" ∨ a.key = "packet_dst_channel") ∧
                a.value = channel_id)) ∧
    is_relevant "channel-7" ⟨"send_packet", [⟨"packet_dst_channel", "channel-7"⟩]⟩ = true ∧
    is_relevant "channel-8" ⟨"send_packet", [⟨"packet_dst_channel", "channel-7"⟩]⟩ = false := by
  refine ⟨fun channel_id e => ?_, by decide, by decide⟩
  simp [is_relevant, List.any_eq_true]

/-- C9: across any finite prefix of the polling loop the cursor is
monotonically non-decreasing: the inner catch-up loop, a single outer
iteration, and any sequence of outer iterations never decrease
`last_height`. -/
theorem c9_cursor_monotone :
    (∀ ch se pf f st rem, st ≤ (runInnerAux ch se pf f st rem).1) ∧
    (∀ ch se pf f current st, st ≤ (runInner ch se pf f current st).1) ∧
    (∀ ch se pf hf f st, st ≤ (pollIteration ch se pf hf f st).1) ∧
    (∀ ch se pf inputs st, st ≤ (pollRun ch se pf inputs st).1) := by
  have hAux : ∀ ch se pf f rem st, st ≤ (runInnerAux ch se pf f st rem).1 := by
    intro ch se pf f rem
    induction rem with
    | zero => intro st; simp [runInnerAux]
    | succ n ih =>
      intro st
      have h := ih (st + 1)
      simp only [runInnerAux]
      omega
  have hInner : ∀ ch se pf f current st, st ≤ (runInner ch se pf f current st).1 :=
    fun ch se pf f current st => hAux ch se pf f (current - st) st
  have hIter : ∀ ch se pf hf f st, st ≤ (pollIteration ch se pf hf f st).1 := by
    intro ch se pf hf f st
    cases hf with
    | none => simp [pollIteration]
    | some current => exact hInner ch se pf f current st
  refine ⟨fun ch se pf f st rem => hAux ch se pf f rem st, hInner, hIter, ?_⟩
  intro ch se pf inputs
  induction inputs with
  | nil => intro st; simp [pollRun]
  | cons p rest ih =>
    intro st
    obtain ⟨hf, f⟩ := p
    have h1 := hIter ch se pf hf f st
    have h2 := ih (pollIteration ch se pf hf f st).1
    simp only [pollRun]
    omega

/-- Hex digits decode what `hexDigitChar` encodes. -/
theorem hexDigitVal_hexDigitChar : ∀ n, n < 16 → hexDigitVal (hexDigitChar n) = some n := by
  decide

/-- `hex::decode` inverts `hex::encode` on byte lists. -/
theorem hexDecodeList_hexEncodeList :
    ∀ bs : List Nat, (∀ b ∈ bs, b < 256) → hexDecodeList (hexEncodeList bs) = some bs := by
  intro bs
  induction bs with
  | nil => intro _; rfl
  | cons b rest ih =>
    intro hb
    have hb0 : b < 256 := hb b (List.mem_cons_self b rest)
    have hdiv : b / 16 < 16 := by omega
    have hmod : b % 16 < 16 := by omega
    have hrest := ih (fun x hx => hb x (List.mem_cons_of_mem b hx))
    have hstep : hexEncodeList (b :: rest)
        = hexDigitChar (b / 16) :: hexDigitChar (b % 16) :: hexEncodeList rest := by
      simp [hexEncodeList]
    rw [hstep]
    simp only [hexDecodeList, hexDigitVal_hexDigitChar _ hdiv,
      hexDigitVal_hexDigitChar _ hmod, hrest]
    simp only [Option.some.injEq, List.cons.injEq, and_true]
    omega

/-- `hex::decode ∘ hex::encode` is the identity on byte lists. -/
theorem hexDecode_hexEncode (bs : List Nat) (h : ∀ b ∈ bs, b < 256) :
    hexDecode (hexEncode bs) = some bs := by
  simpa [hexDecode, hexEncode] using hexDecodeList_hexEncodeList bs h

/-- Every byte of a UTF-8 encoded character is below 256. -/
theorem utf8EncodeChar_lt256 (c : Char) : ∀ b ∈ utf8EncodeChar c, b < 256 := by
  have hv : c.toNat < 0xd800 ∨ (0xe000 ≤ c.toNat ∧ c.toNat < 0x110000) := c.valid
  intro b hb
  simp only [utf8EncodeChar] at hb
  split at hb <;> [skip; split at hb] <;> [skip; skip; split at hb] <;>
    simp_all <;> omega

/-- Every byte of a UTF-8 encoded string is below 256. -/
theorem utf8Encode_lt256 (s : String) : ∀ b ∈ utf8Encode s, b < 256 := by
  intro b hb
  simp only [utf8Encode, List.mem_flatMap] at hb
  obtain ⟨c, _, hc⟩ := hb
  exact utf8EncodeChar_lt256 c b hc

/-- Scalar-value round trip through `charOfCp`. -/
theorem charOfCp_toNat (c : Char) : charOfCp c.toNat = c := by
  have hv : c.toNat.isValidChar := c.valid
  have h1 : charOfCp c.toNat = Char.ofNat c.toNat := by
    simp [charOfCp, Char.ofNat, hv]
  rw [h1, Char.ofNat_toNat]

/-- Decoding a 1-byte sequence. -/
theorem utf8Loop_one (n : Nat) (h : n < 0x80) (bs : List Nat) :
    utf8DecodeLoop none (n :: bs) = charOfCp n :: utf8DecodeLoop none bs := by
  simp only [utf8DecodeLoop, utf8Step, utf8Lead, if_pos h, List.cons_append,
    List.nil_append]

/-- Decoding a 2-byte sequence produced by the encoder. -/
theorem utf8Loop_two (n : Nat) (h1 : 0x80 ≤ n) (h2 : n < 0x800) (bs : List Nat) :
    utf8DecodeLoop none ((0xC0 + n / 64) :: (0x80 + n % 64) :: bs)
      = charOfCp n :: utf8DecodeLoop none bs := by
  have e1 : ¬(0xC0 + n / 64 < 0x80) := by omega
  have e2 : ¬(0xC0 + n / 64 < 0xC0) := by omega
  have e3 : 0xC0 + n / 64 < 0xE0 := by omega
  have e4 : 0x80 ≤ 0x80 + n % 64 ∧ 0x80 + n % 64 < 0xC0 := by omega
  have e5 : (1 : Nat) ≤ 1 := le_refl 1
  have eacc : (0xC0 + n / 64 - 0xC0) * 64 + (0x80 + n % 64 - 0x80) = n := by omega
  have e6 : 0x80 ≤ (0xC0 + n / 64 - 0xC0) * 64 + (0x80 + n % 64 - 0x80) := by omega
  simp only [utf8DecodeLoop, utf8Step, utf8Lead, if_neg e1, if_neg e2, if_pos e3,
    if_pos e4, if_pos e5, if_pos e6, eacc, List.cons_append, List.nil_append,
    List.append_nil]
  rw [if_pos h1]
  rfl

/-- Decoding a 3-byte sequence produced by the encoder. -/
theorem utf8Loop_three (n : Nat) (h1 : 0x800 ≤ n) (h2 : n < 0x10000) (bs : List Nat) :
    utf8DecodeLoop none ((0xE0 + n / 4096) :: (0x80 + (n / 64) % 64) :: (0x80 + n % 64) :: bs)
      = charOfCp n :: utf8DecodeLoop none bs := by
  have e1 : ¬(0xE0 + n / 4096 < 0x80) := by omega
  have e2 : ¬(0xE0 + n / 4096 < 0xC0) := by omega
  have e3 : ¬(0xE0 + n / 4096 < 0xE0) := by omega
  have e4 : 0xE0 + n / 4096 < 0xF0 := by omega
  have e5 : 0x80 ≤ 0x80 + (n / 64) % 64 ∧ 0x80 + (n / 64) % 64 < 0xC0 := by omega
  have e6 : ¬((2 : Nat) ≤ 1) := by omega
  have e7 : 0x80 ≤ 0x80 + n % 64 ∧ 0x80 + n % 64 < 0xC0 := by omega
  have e8 : (2 : Nat) - 1 ≤ 1 := by omega
  have eacc : ((0xE0 + n / 4096 - 0xE0) * 64 + (0x80 + (n / 64) % 64 - 0x80)) * 64 +
      (0x80 + n % 64 - 0x80) = n := by omega
  have e9 : 0x800 ≤ ((0xE0 + n / 4096 - 0xE0) * 64 + (0x80 + (n / 64) % 64 - 0x80)) * 64 +
      (0x80 + n % 64 - 0x80) := by omega
  simp only [utf8DecodeLoop, utf8Step, utf8Lead, if_neg e1, if_neg e2, if_neg e3,
    if_pos e4, if_pos e5, if_neg e6, if_pos e7, if_pos e8, if_pos e9, eacc,
    List.cons_append, List.nil_append, List.append_nil]
  rw [if_pos h1]
  rfl

/-- Decoding a 4-byte sequence produced by the encoder. -/
theorem utf8Loop_four (n : Nat) (h1 : 0x10000 ≤ n) (h2 : n < 0x110000) (bs : List Nat) :
    utf8DecodeLoop none ((0xF0 + n / 262144) :: (0x80 + (n / 4096) % 64) ::
        (0x80 + (n / 64) % 64) :: (0x80 + n % 64) :: bs)
      = charOfCp n :: utf8DecodeLoop none bs := by
  have e1 : ¬(0xF0 + n / 262144 < 0x80) := by omega
  have e2 : ¬(0xF0 + n / 262144 < 0xC0) := by omega
  have e3 : ¬(0xF0 + n / 262144 < 0xE0) := by omega
  have e4 : ¬(0xF0 + n / 262144 < 0xF0) := by omega
  have e5 : 0xF0 + n / 262144 < 0xF8 := by omega
  have e6 : 0x80 ≤ 0x80 + (n / 4096) % 64 ∧ 0x80 + (n / 4096) % 64 < 0xC0 := by omega
  have e7 : ¬((3 : Nat) ≤ 1) := by omega
  have e8 : 0x80 ≤ 0x80 + (n / 64) % 64 ∧ 0x80 + (n / 64) % 64 < 0xC0 := by omega
  have e9 : ¬((3 : Nat) - 1 ≤ 1) := by omega
  have e10 : 0x80 ≤ 0x80 + n % 64 ∧ 0x80 + n % 64 < 0xC0 := by omega
  have e11 : (3 : Nat) - 1 - 1 ≤ 1 := by omega
  have eacc : (((0xF0 + n / 262144 - 0xF0) * 64 + (0x80 + (n / 4096) % 64 - 0x80)) * 64 +
      (0x80 + (n / 64) % 64 - 0x80)) * 64 + (0x80 + n % 64 - 0x80) = n := by omega
  have e12 : 0x10000 ≤ (((0xF0 + n / 262144 - 0xF0) * 64 + (0x80 + (n / 4096) % 64 - 0x80)) * 64 +
      (0x80 + (n / 64) % 64 - 0x80)) * 64 + (0x80 + n % 64 - 0x80) := by omega
  simp only [utf8DecodeLoop, utf8Step, utf8Lead, if_neg e1, if_neg e2, if_neg e3,
    if_neg e4, if_pos e5, if_pos e6, if_neg e7, if_pos e8, if_neg e9, if_pos e10,
    if_pos e11, if_pos e12, eacc, List.cons_append, List.nil_append, List.append_nil]
  rw [if_pos h1]
  rfl

/-- Decoding the encoding of one character resumes cleanly on the rest of
the byte stream. -/
theorem utf8Loop_encodeChar (c : Char) (bs : List Nat) :
    utf8DecodeLoop none (utf8EncodeChar c ++ bs) = c :: utf8DecodeLoop none bs := by
  have hv : c.toNat < 0xd800 ∨ (0xe000 ≤ c.toNat ∧ c.toNat < 0x110000) := c.valid
  by_cases h1 : c.toNat < 0x80
  · rw [show utf8EncodeChar c = [c.toNat] from by simp [utf8EncodeChar, h1]]
    rw [List.cons_append, List.nil_append, utf8Loop_one _ h1, charOfCp_toNat]
  · by_cases h2 : c.toNat < 0x800
    · rw [show utf8EncodeChar c = [0xC0 + c.toNat / 64, 0x80 + c.toNat % 64] from by
        simp [utf8EncodeChar, h1, h2]]
      simp only [List.cons_append, List.nil_append]
      rw [utf8Loop_two _ (by omega) h2, charOfCp_toNat]
    · by_cases h3 : c.toNat < 0x10000
      · rw [show utf8EncodeChar c
            = [0xE0 + c.toNat / 4096, 0x80 + (c.toNat / 64) % 64, 0x80 + c.toNat % 64] from by
          simp [utf8EncodeChar, h1, h2, h3]]
        simp only [List.cons_append, List.nil_append]
        rw [utf8Loop_three _ (by omega) h3, charOfCp_toNat]
      · rw [show utf8EncodeChar c
            = [0xF0 + c.toNat / 262144, 0x80 + (c.toNat / 4096) % 64,
               0x80 + (c.toNat / 64) % 64, 0x80 + c.toNat % 64] from by
          simp [utf8EncodeChar, h1, h2, h3]]
        simp only [List.cons_append, List.nil_append]
        rw [utf8Loop_four _ (by omega) (by omega), charOfCp_toNat]

/-- UTF-8 decoding inverts UTF-8 encoding on character lists. -/
theorem utf8Loop_encode (l : List Char) :
    utf8DecodeLoop none (l.flatMap utf8EncodeChar) = l := by
  induction l with
  | nil => rfl
  | cons c rest ih =>
    have hstep : (c :: rest).flatMap utf8EncodeChar
        = utf8EncodeChar c ++ rest.flatMap utf8EncodeChar := by
      simp
    rw [hstep, utf8Loop_encodeChar, ih]

/-- `String::from_utf8_lossy` inverts UTF-8 encoding on strings. -/
theorem utf8LossyDecode_utf8Encode (s : String) :
    utf8LossyDecode (utf8Encode s) = s := by
  rw [utf8LossyDecode, utf8Encode, utf8Loop_encode]

/-- Parsing a printed (escaped) JSON string literal recovers the original
content and leaves exactly the input after the closing quote. -/
theorem parseStringBody_escape (s : List Char) (rest : List Char) :
    parseStringBody (escapeString s ++ '"' :: rest) = some (s, rest) := by
  induction s with
  | nil =>
    show parseStringBody ([].flatMap escapeChar ++ '"' :: rest) = some ([], rest)
    rw [List.flatMap_nil, List.nil_append, parseStringBody.eq_def]
    simp
  | cons c cs ih =>
    have hs : escapeString (c :: cs) ++ '"' :: rest
        = escapeChar c ++ (escapeString cs ++ '"' :: rest) := by
      simp [escapeString]
    rw [hs]
    by_cases hq : c = '"'
    · subst hq
      rw [show escapeChar '"' = ['\\', '"'] from by simp [escapeChar]]
      rw [List.cons_append, List.cons_append, List.nil_append, parseStringBody.eq_def]
      simp [ih]
    · by_cases hb : c = '\\'
      · subst hb
        rw [show escapeChar '\\' = ['\\', '\\'] from by simp [escapeChar]]
        rw [List.cons_append, List.cons_append, List.nil_append, parseStringBody.eq_def]
        simp [ih]
      · by_cases hctl : c.toNat < 0x20
        · have hofn := Char.ofNat_toNat c
          by_cases t8 : c.toNat = 8
          · rw [show escapeChar c = ['\\', 'b'] from by simp [escapeChar, hq, hb, hctl, t8]]
            rw [t8] at hofn
            rw [List.cons_append, List.cons_append, List.nil_append, parseStringBody.eq_def]
            simp only [ih]
            simp
            exact hofn
          · by_cases t9 : c.toNat = 9
            · rw [show escapeChar c = ['\\', 't'] from by
                simp [escapeChar, hq, hb, hctl, t8, t9]]
              rw [t9] at hofn
              rw [List.cons_append, List.cons_append, List.nil_append, parseStringBody.eq_def]
              simp only [ih]
              simp
              exact hofn
            · by_cases t10 : c.toNat = 10
              · rw [show escapeChar c = ['\\', 'n'] from by
                  simp [escapeChar, hq, hb, hctl, t8, t9, t10]]
                rw [t10] at hofn
                rw [List.cons_append, List.cons_append, List.nil_append, parseStringBody.eq_def]
                simp only [ih]
                simp
                exact hofn
              · by_cases t12 : c.toNat = 12
                · rw [show escapeChar c = ['\\', 'f'] from by
                    simp [escapeChar, hq, hb, hctl, t8, t9, t10, t12]]
                  rw [t12] at hofn
                  rw [List.cons_append, List.cons_append, List.nil_append,
                    parseStringBody.eq_def]
                  simp only [ih]
                  simp
                  exact hofn
                · by_cases t13 : c.toNat = 13
                  · rw [show escapeChar c = ['\\', 'r'] from by
                      simp [escapeChar, hq, hb, hctl, t8, t9, t10, t12, t13]]
                    rw [t13] at hofn
                    rw [List.cons_append, List.cons_append, List.nil_append,
                      parseStringBody.eq_def]
                    simp only [ih]
                    simp
                    exact hofn
                  · rw [show escapeChar c
                        = ['\\', 'u', '0', '0', hexDigitChar (c.toNat / 16),
                           hexDigitChar (c.toNat % 16)] from by
                      simp [escapeChar, hq, hb, hctl, t8, t9, t10, t12, t13]]
                    have h0 : hexDigitVal '0' = some 0 := by decide
                    have hd3 : hexDigitVal (hexDigitChar (c.toNat / 16))
                        = some (c.toNat / 16) := hexDigitVal_hexDigitChar _ (by omega)
                    have hd4 : hexDigitVal (hexDigitChar (c.toNat % 16))
                        = some (c.toNat % 16) := hexDigitVal_hexDigitChar _ (by omega)
                    have hn : c.toNat / 16 * 16 + c.toNat % 16 = c.toNat := by omega
                    have hv : c.toNat.isValidChar := c.valid
                    rw [List.cons_append, List.cons_append, List.cons_append,
                      List.cons_append, List.cons_append, List.cons_append,
                      List.nil_append, parseStringBody.eq_def]
                    simp [h0, hd3, hd4, hn, hv, ih, charOfCp_toNat]
        · rw [show escapeChar c = [c] from by simp [escapeChar, hq, hb, hctl]]
          rw [List.cons_append, List.nil_append, parseStringBody.eq_def]
          simp [hq, hb, hctl, ih]

/-- Parsing printed members (followed by the closing brace) recovers the
member list, for any sufficient fuel. -/
theorem parseMembers_printMembers :
    ∀ (ms : List (String × String)) (fuel : Nat) (rest : List Char), ms ≠ [] →
      ms.length + 1 ≤ fuel →
      parseMembers fuel (printMembers ms ++ '\x7d' :: rest) = some (ms, rest) := by
  intro ms
  induction ms with
  | nil => intro fuel rest h; exact absurd rfl h
  | cons kv tail ih =>
    intro fuel rest _ hfuel
    obtain ⟨k, v⟩ := kv
    obtain ⟨f, rfl⟩ : ∃ f, fuel = f + 1 := ⟨fuel - 1, by omega⟩
    cases tail with
    | nil =>
      have hshape : printMembers [(k, v)] ++ '\x7d' :: rest
          = '"' :: (escapeString k.data ++ '"' ::
              (':' :: '"' :: (escapeString v.data ++ '"' :: '\x7d' :: rest))) := by
        simp [printMembers, printMember]
      rw [hshape, parseMembers.eq_def]
      simp [parseStringBody_escape]
    | cons kv2 tail2 =>
      have hshape : printMembers ((k, v) :: kv2 :: tail2) ++ '\x7d' :: rest
          = '"' :: (escapeString k.data ++ '"' ::
              (':' :: '"' :: (escapeString v.data ++ '"' :: ',' ::
                (printMembers (kv2 :: tail2) ++ '\x7d' :: rest)))) := by
        simp [printMembers, printMember]
      rw [hshape, parseMembers.eq_def]
      have hrec := ih f rest (by simp) (by simp at hfuel ⊢; omega)
      simp [parseStringBody_escape, hrec]

/-- A printed member list is at least as long as the member list itself. -/
theorem printMembers_length_ge :
    ∀ ms : List (String × String), ms.length ≤ (printMembers ms).length := by
  intro ms
  induction ms with
  | nil => simp [printMembers]
  | cons kv tail ih =>
    obtain ⟨k, v⟩ := kv
    cases tail with
    | nil => simp [printMembers, printMember]
    | cons kv2 tail2 =>
      have h : printMembers ((k, v) :: kv2 :: tail2)
          = printMember k v ++ ',' :: printMembers (kv2 :: tail2) := by
        simp [printMembers]
      rw [h]
      simp only [List.length_append, List.length_cons, printMember, List.length_cons,
        List.length_append] at *
      omega

/-- Parsing a printed object recovers the member list. -/
theorem jsonParseObj_jsonPrintObj (ms : List (String × String)) :
    jsonParseObj (jsonPrintObj ms) = some ms := by
  cases ms with
  | nil => decide
  | cons kv tail =>
    have hdata : (jsonPrintObj (kv :: tail)).data
        = '\x7b' :: (printMembers (kv :: tail) ++ ['\x7d']) := rfl
    have hlen := printMembers_length_ge (kv :: tail)
    have hne : ¬(printMembers (kv :: tail) ++ ['\x7d'] = ['\x7d']) := by
      intro h
      have hl := congrArg List.length h
      simp at hl
      simp [hl] at hlen
    have hparse := parseMembers_printMembers (kv :: tail)
        ((printMembers (kv :: tail) ++ ['\x7d']).length + 1) [] (by simp)
        (by simp at hlen ⊢; omega)
    simp only [jsonParseObj, hdata]
    simp only [if_pos rfl, if_neg hne]
    rw [show printMembers (kv :: tail) ++ ['\x7d']
        = printMembers (kv :: tail) ++ '\x7d' :: [] from rfl] at hparse ⊢
    rw [hparse]
    simp

/-- The spec's serialization of a `FungibleTokenPacketData` as a JSON
object with the four string fields (serde_json canonical form). -/
def packetDataToJsonText (d : FungibleTokenPacketData) : String :=
  jsonPrintObj [("amount", d.amount), ("denom", d.denom),
    ("sender", d.sender), ("receiver", d.receiver)]

/-- C10: serializing any `FungibleTokenPacketData` as a JSON object,
hex-encoding its UTF-8 bytes, and running the decoder's chain of ibc.rs
lines 209-233 (hex-decode, lossy UTF-8 decode, JSON parse, field
extraction) yields back the identical four structured field values. -/
theorem c10_packet_data_round_trip (d : FungibleTokenPacketData) :
    decodePayload (hexEncode (utf8Encode (packetDataToJsonText d))) = PayloadResult.ok d := by
  obtain ⟨a, dn, sn, rc⟩ := d
  simp only [packetDataToJsonText]
  have h1 := hexDecode_hexEncode
    (utf8Encode (jsonPrintObj [("amount", a), ("denom", dn), ("sender", sn), ("receiver", rc)]))
    (utf8Encode_lt256 _)
  simp only [decodePayload, h1, utf8LossyDecode_utf8Encode, jsonParseObj_jsonPrintObj]
  rfl
